import Mathlib

/-!
# Verification of the Dimensio measurement-overlay geometry and persistence logic

Shallow embedding of the alignment / drag-resize geometry engine, the
spacing calculator, the frame manager operations and the JSON project
persistence of the Dimensio application, together with proofs checking the
natural-language specification against the code.

Conventions used throughout:

* Qt's `QRect` stores integer `x, y, width, height`; its `right()` and
  `bottom()` accessors return `x + width - 1` and `y + height - 1`
  (the historical inclusive convention), and `center()` divides by two with
  C++ truncating division.  These are modelled by `Rect.qright`,
  `Rect.qbottom`, `Rect.qcenterX`, `Rect.qcenterY`.
* Python's floor division `//` is modelled by `Int.fdiv`; C++ `/` on
  integers by `Int.div` (both truncate small positive values identically).
* `QWidget.setGeometry` / `QWidget.resize` clamp the requested size to the
  widget's minimum/maximum size.  `MeasureFrame._init_frame` installs
  `setMinimumSize(MIN_SIZE, MIN_SIZE)` and `setMaximumSize(MAX_SIZE, MAX_SIZE)`,
  so every geometry assignment passes through `qtApplySizeLimit`.
-/

namespace Dimensio

/-- Integer rectangle, the model of Qt's `QRect` (`{x, y, width, height}`). -/
structure Rect where
  x : Int
  y : Int
  w : Int
  h : Int
deriving DecidableEq

/-- Constant `Config.MIN_SIZE` from `src/config.py`. -/
def MIN_SIZE : Int := 10

/-- Constant `Config.MAX_SIZE` from `src/config.py`. -/
def MAX_SIZE : Int := 4000

/-- Qt `QRect.right()`: `x + width - 1` (inclusive right edge). -/
def Rect.qright (r : Rect) : Int := r.x + r.w - 1

/-- Qt `QRect.bottom()`: `y + height - 1` (inclusive bottom edge). -/
def Rect.qbottom (r : Rect) : Int := r.y + r.h - 1

/-- Qt `QRect.center().x()`: `(x1 + x2) / 2` with C++ truncating division. -/
def Rect.qcenterX (r : Rect) : Int := Int.tdiv (r.x + r.qright) 2

/-- Qt `QRect.center().y()`: `(y1 + y2) / 2` with C++ truncating division. -/
def Rect.qcenterY (r : Rect) : Int := Int.tdiv (r.y + r.qbottom) 2

/-- The size clamp applied by Qt on every `setGeometry`/`resize`, induced by
`setMinimumSize(MIN_SIZE, MIN_SIZE)` and `setMaximumSize(MAX_SIZE, MAX_SIZE)`
in `MeasureFrame._init_frame`. -/
def qtApplySizeLimit (v : Int) : Int := min (max v MIN_SIZE) MAX_SIZE

/-- Model of `QWidget.setGeometry(x, y, w, h)` on a `MeasureFrame`:
the position is taken as requested, the size is clamped to the widget's
minimum/maximum size. -/
def qtSetGeometry (x y w h : Int) : Rect :=
  ⟨x, y, qtApplySizeLimit w, qtApplySizeLimit h⟩

/-- Exclusive right edge `x + width`, used to state screen containment
(the statement is convention-independent because the same accessor is
applied to the frame and to the screen). -/
def Rect.xEnd (r : Rect) : Int := r.x + r.w

/-- Exclusive bottom edge `y + height`. -/
def Rect.yEnd (r : Rect) : Int := r.y + r.h

/-- Containment: `f` lies fully inside the available rectangle `s`:
left/top/right/bottom edges all within the screen's. -/
def containedIn (f s : Rect) : Prop :=
  s.x ≤ f.x ∧ s.y ≤ f.y ∧ f.xEnd ≤ s.xEnd ∧ f.yEnd ≤ s.yEnd

instance (f s : Rect) : Decidable (containedIn f s) := by
  unfold containedIn; infer_instance

/-! ## Drag/resize geometry engine (`MeasureFrame` in
`src/widgets/measure_overlay_external.py`) -/

/-- Enumeration `ResizeMode` from `src/enums.py`. -/
inductive ResizeMode where
  | NONE
  | MOVE
  | RESIZE_LEFT
  | RESIZE_RIGHT
  | RESIZE_TOP
  | RESIZE_BOTTOM
  | RESIZE_TOP_LEFT
  | RESIZE_TOP_RIGHT
  | RESIZE_BOTTOM_LEFT
  | RESIZE_BOTTOM_RIGHT
deriving DecidableEq

/-- The modes that adjust the left edge, as listed in `_perform_drag`. -/
def isLeftMode (m : ResizeMode) : Bool :=
  m = ResizeMode.RESIZE_LEFT || m = ResizeMode.RESIZE_TOP_LEFT || m = ResizeMode.RESIZE_BOTTOM_LEFT

/-- The modes that adjust the right edge, as listed in `_perform_drag`. -/
def isRightMode (m : ResizeMode) : Bool :=
  m = ResizeMode.RESIZE_RIGHT || m = ResizeMode.RESIZE_TOP_RIGHT || m = ResizeMode.RESIZE_BOTTOM_RIGHT

/-- The modes that adjust the top edge, as listed in `_perform_drag`. -/
def isTopMode (m : ResizeMode) : Bool :=
  m = ResizeMode.RESIZE_TOP || m = ResizeMode.RESIZE_TOP_LEFT || m = ResizeMode.RESIZE_TOP_RIGHT

/-- The modes that adjust the bottom edge, as listed in `_perform_drag`. -/
def isBottomMode (m : ResizeMode) : Bool :=
  m = ResizeMode.RESIZE_BOTTOM || m = ResizeMode.RESIZE_BOTTOM_LEFT || m = ResizeMode.RESIZE_BOTTOM_RIGHT

/-- Method `MeasureFrame._perform_drag`, `ResizeMode.MOVE` branch:
`new_pos = startGeom.topLeft + delta`, clamped with
`x = max(s.left, min(s.right - width, new_pos.x))` (and similarly for `y`);
only the position changes (`self.move`), the size `(curW, curH)` is the
frame's current size. -/
def performDragMove (startGeom : Rect) (dx dy : Int) (curW curH : Int) (s : Rect) : Rect :=
  let nx := startGeom.x + dx
  let ny := startGeom.y + dy
  ⟨max s.x (min (s.qright - curW) nx), max s.y (min (s.qbottom - curH) ny), curW, curH⟩

/-- Method `MeasureFrame._perform_drag`, resize branch (any mode other than `MOVE`):
per-edge adjustment of the start geometry `orig` by the pointer delta,
followed by `setGeometry` (which clamps the size to `[MIN_SIZE, MAX_SIZE]`). -/
def performDragResize (mode : ResizeMode) (orig : Rect) (dx dy : Int) (s : Rect) : Rect :=
  let p :=
    if isLeftMode mode then
      let nw := max MIN_SIZE (orig.w - dx)
      let nx := max s.x (orig.qright - nw)
      (nx, orig.qright - nx)
    else if isRightMode mode then
      let nw := max MIN_SIZE (orig.w + dx)
      let nw := if orig.x + nw > s.qright then s.qright - orig.x else nw
      (orig.x, nw)
    else (orig.x, orig.w)
  let q :=
    if isTopMode mode then
      let nh := max MIN_SIZE (orig.h - dy)
      let ny := max s.y (orig.qbottom - nh)
      (ny, orig.qbottom - ny)
    else if isBottomMode mode then
      let nh := max MIN_SIZE (orig.h + dy)
      let nh := if orig.y + nh > s.qbottom then s.qbottom - orig.y else nh
      (orig.y, nh)
    else (orig.y, orig.h)
  qtSetGeometry p.1 q.1 p.2 q.2

/-- Method `MeasureFrame._perform_drag`: move branch for `MOVE`, per-edge resize
branch otherwise. -/
def performDrag (mode : ResizeMode) (orig : Rect) (dx dy : Int) (curW curH : Int)
    (s : Rect) : Rect :=
  if mode = ResizeMode.MOVE then performDragMove orig dx dy curW curH s
  else performDragResize mode orig dx dy s

/-- Method `MeasureFrame.wheelEvent`: one wheel tick.  `step = 10` if the wheel
delta is positive else `-10`; the frame is resized symmetrically around its
center and constrained to the screen's available rectangle, then
`setGeometry` applies the widget size limits. -/
def wheelResize (g : Rect) (s : Rect) (delta : Int) : Rect :=
  let step : Int := if delta > 0 then 10 else -10
  let nw := max MIN_SIZE (g.w + step)
  let nh := max MIN_SIZE (g.h + step)
  let nx := g.qcenterX - Int.fdiv nw 2
  let ny := g.qcenterY - Int.fdiv nh 2
  let nx := if nx < s.x then s.x else nx
  let ny := if ny < s.y then s.y else ny
  let nw := if nx + nw > s.qright then s.qright - nx else nw
  let nh := if ny + nh > s.qbottom then s.qbottom - ny else nh
  let nw := max MIN_SIZE nw
  let nh := max MIN_SIZE nh
  qtSetGeometry nx ny nw nh

/-- Method `MeasureFrame._on_dimension_input`: manual numeric input from the
sidebar sets one axis.  `axis` is the string the signal carries
(`"width"` selects the width path, anything else the height path);
`val = max(MIN_SIZE, value)` is capped by `screen.right() - x`
(resp. `screen.bottom() - y`) and applied with `resize`, which keeps the
origin and passes both sizes through the widget size limits. -/
def onDimensionInput (g : Rect) (s : Rect) (axis : String) (value : Int) : Rect :=
  let val := max MIN_SIZE value
  if axis = "width" then
    let maxw := s.qright - g.x
    let val := min val maxw
    qtSetGeometry g.x g.y val g.h
  else
    let maxh := s.qbottom - g.y
    let val := min val maxh
    qtSetGeometry g.x g.y g.w val

/-- Method `FrameManager._handle_move_frame`: directional nudge of a frame.
A locked frame is left untouched; otherwise the position is stepped by
`10` when Shift is held, else `1`, in the direction given by the string,
and clamped to the screen exactly as in the move drag. -/
def handleMoveFrame (g : Rect) (locked : Bool) (dir : String) (shift : Bool) (s : Rect) : Rect :=
  if locked then g else
  let step : Int := if shift then 10 else 1
  let px := if dir = "left" then g.x - step else if dir = "right" then g.x + step else g.x
  let py := if dir = "up" then g.y - step else if dir = "down" then g.y + step else g.y
  ⟨max s.x (min (s.qright - g.w) px), max s.y (min (s.qbottom - g.h) py), g.w, g.h⟩

/-! ## Smart-guide matcher (`SmartGuides.update_guides` in
`src/widgets/smart_guides.py`)

The Python code converts every coordinate to `float` and divides widths by
`2.0`; all inputs are integers, so every value is exactly representable and
the computation is modelled over `ℚ`. -/

/-- A span `(lo, hi)` accumulated under a matched coordinate. -/
abbrev Span := ℚ × ℚ

/-- The `matches_x` / `matches_y` dictionaries: insertion-ordered maps from a
matched coordinate value to the list of accumulated spans. -/
abbrev Matches := List (ℚ × List Span)

/-- One `matches[m_val].append(span_m); matches[m_val].append(span_r)` step,
creating the key with an empty list first when absent (Python dict
semantics: new keys go to the end, existing keys keep their position). -/
def addSpans : Matches → ℚ → Span → Span → Matches
  | [], k, s1, s2 => [(k, [s1, s2])]
  | (k0, v) :: rest, k, s1, s2 =>
    if k0 = k then (k0, v ++ [s1, s2]) :: rest
    else (k0, v) :: addSpans rest k s1 s2

/-- Lookup of a key in the insertion-ordered map. -/
def lookupSpans (k : ℚ) : Matches → Option (List Span)
  | [] => none
  | (k0, v) :: rest => if k0 = k then some v else lookupSpans k rest

/-- The three X-coordinates `[m_x1, m_xc, m_x2]` (left, center, right) of a
rectangle, in the iteration order of `m_points_x` / `r_points_x`. -/
def Rect.gxs (r : Rect) : List ℚ := [(r.x : ℚ), (r.x : ℚ) + (r.w : ℚ) / 2, (r.x : ℚ) + (r.w : ℚ)]

/-- The three Y-coordinates `[m_y1, m_yc, m_y2]` (top, center, bottom). -/
def Rect.gys (r : Rect) : List ℚ := [(r.y : ℚ), (r.y : ℚ) + (r.h : ℚ) / 2, (r.y : ℚ) + (r.h : ℚ)]

/-- The vertical extent `(m_y1, m_y2)` of a rectangle. -/
def Rect.spanY (r : Rect) : Span := ((r.y : ℚ), (r.y : ℚ) + (r.h : ℚ))

/-- The horizontal extent `(m_x1, m_x2)` of a rectangle. -/
def Rect.spanX (r : Rect) : Span := ((r.x : ℚ), (r.x : ℚ) + (r.w : ℚ))

/-- Processing of one other rectangle `r` against the moving rectangle `m`
for one axis: for every moving coordinate and every coordinate of `r` whose
absolute difference is within the tolerance `1.0`, both extents are appended
under the moving coordinate's value.  `pts` selects the coordinate triple
and `sp` the perpendicular extent (X-axis: `Rect.gxs` with `Rect.spanY`). -/
def procRect (pts : Rect → List ℚ) (sp : Rect → Span) (m : Rect) (acc : Matches) (r : Rect) :
    Matches :=
  (pts m).foldl (fun a mv =>
    (pts r).foldl (fun a2 rv =>
      if |mv - rv| ≤ 1 then addSpans a2 mv (sp m) (sp r) else a2) a) acc

/-- The main loop of `update_guides` for one axis: every rectangle equal in
value to the moving one is skipped (`if r == moving_rect: continue`); the
others contribute their matches. -/
def buildMatches (pts : Rect → List ℚ) (sp : Rect → Span) (m : Rect) (os : List Rect) :
    Matches :=
  os.foldl (fun acc r => if r = m then acc else procRect pts sp m acc r) []

/-- Dictionary `matches_x` after the loop: X-coordinate matches with vertical spans. -/
def matchesX (m : Rect) (os : List Rect) : Matches := buildMatches Rect.gxs Rect.spanY m os

/-- Dictionary `matches_y` after the loop: Y-coordinate matches with horizontal spans. -/
def matchesY (m : Rect) (os : List Rect) : Matches := buildMatches Rect.gys Rect.spanX m os

/-- Python's `min(...)`/`max(...)` over a selected component of a span
list, written generically: `sel` picks the component and `op` combines
(`min` or `max`).  The argument is never empty in `update_guides`
(totalised with `0` on `[]`). -/
def spansFold (sel : Span → ℚ) (op : ℚ → ℚ → ℚ) : List Span → ℚ
  | [] => 0
  | [s] => sel s
  | s :: s2 :: rest => op (sel s) (spansFold sel op (s2 :: rest))

/-- Python's `min(s[0] for s in spans)`. -/
def spansLo : List Span → ℚ := spansFold Prod.fst min

/-- Python's `max(s[1] for s in spans)`. -/
def spansHi : List Span → ℚ := spansFold Prod.snd max

/-- Combination of `Option.getD` with `op`: the effect of appending a block with
combined value `z` on the tracked fold value of a span list (`none` models
a key not present yet). -/
def optUpd (op : ℚ → ℚ → ℚ) : Option ℚ → ℚ → ℚ
  | none, z => z
  | some a, z => op a z

/-- All span lists stored in a `Matches` map are nonempty (they are only
ever created with two elements and extended). -/
def MatchesWF (acc : Matches) : Prop := ∀ kv ∈ acc, kv.2 ≠ ([] : List Span)

/-- A guide line segment `(x1, y1, x2, y2)`. -/
structure Guide where
  x1 : ℚ
  y1 : ℚ
  x2 : ℚ
  y2 : ℚ
deriving DecidableEq

/-- The vertical guides appended to `active_guides`: one per key of
`matches_x`, spanning the min/max of the accumulated vertical spans. -/
def vGuides (m : Rect) (os : List Rect) : List Guide :=
  (matchesX m os).map (fun kv => Guide.mk kv.1 (spansLo kv.2) kv.1 (spansHi kv.2))

/-- The horizontal guides appended to `active_guides`. -/
def hGuides (m : Rect) (os : List Rect) : List Guide :=
  (matchesY m os).map (fun kv => Guide.mk (spansLo kv.2) kv.1 (spansHi kv.2) kv.1)

/-- Method `update_guides`: the resulting `active_guides` list (vertical guides
first, then horizontal ones). -/
def updateGuides (m : Rect) (os : List Rect) : List Guide := vGuides m os ++ hGuides m os

/-- Specification-side predicate: rectangle `r` participates in a vertical
alignment at moving X-coordinate `v` — it is not value-equal to the moving
rectangle and one of its three X-coordinates is within tolerance `1` of `v`. -/
def matchesAtX (m : Rect) (v : ℚ) (r : Rect) : Bool :=
  decide (r ≠ m) && r.gxs.any (fun c => |v - c| ≤ 1)

/-- Specification-side predicate for horizontal alignments at moving
Y-coordinate `v`. -/
def matchesAtY (m : Rect) (v : ℚ) (r : Rect) : Bool :=
  decide (r ≠ m) && r.gys.any (fun c => |v - c| ≤ 1)

/-- The minimum of the vertical extents (top edges) of the moving rectangle
and of every other rectangle matching at key `v`. -/
def alignLoY (m : Rect) (os : List Rect) (v : ℚ) : ℚ :=
  os.foldl (fun a r => if matchesAtX m v r then min a r.spanY.1 else a) m.spanY.1

/-- The maximum of the vertical extents (bottom edges) of the moving
rectangle and of every other rectangle matching at key `v`. -/
def alignHiY (m : Rect) (os : List Rect) (v : ℚ) : ℚ :=
  os.foldl (fun a r => if matchesAtX m v r then max a r.spanY.2 else a) m.spanY.2

/-- Horizontal counterpart of `alignLoY`. -/
def alignLoX (m : Rect) (os : List Rect) (v : ℚ) : ℚ :=
  os.foldl (fun a r => if matchesAtY m v r then min a r.spanX.1 else a) m.spanX.1

/-- Horizontal counterpart of `alignHiY`. -/
def alignHiX (m : Rect) (os : List Rect) (v : ℚ) : ℚ :=
  os.foldl (fun a r => if matchesAtY m v r then max a r.spanX.2 else a) m.spanX.2

/-! ## Spacing calculator (`SpacingOverlay.paintEvent` in
`src/widgets/spacing_overlay.py`)

`r1` is the source (selected frame), `r2` the target (frame under the
cursor).  The accessors `right()`, `bottom()`, `center()` are Qt's
inclusive-edge versions. -/

/-- The horizontal measurement, if any: the drawn line `(x1, y, x2, y)` and
the displayed distance.  Produced when `r1.right() < r2.left()` (distance
`r2.left() - r1.right()`) or `r1.left() > r2.right()` (mirrored), on the
horizontal line `y = r2.center().y()`. -/
def spacingH (r1 r2 : Rect) : Option ((Int × Int × Int × Int) × Int) :=
  if r1.qright < r2.x then
    some ((r1.qright, r2.qcenterY, r2.x, r2.qcenterY), r2.x - r1.qright)
  else if r1.x > r2.qright then
    some ((r2.qright, r2.qcenterY, r1.x, r2.qcenterY), r1.x - r2.qright)
  else none

/-- The vertical measurement, if any, on the vertical line
`x = r2.center().x()`. -/
def spacingV (r1 r2 : Rect) : Option ((Int × Int × Int × Int) × Int) :=
  if r1.qbottom < r2.y then
    some ((r2.qcenterX, r1.qbottom, r2.qcenterX, r2.y), r2.y - r1.qbottom)
  else if r1.y > r2.qbottom then
    some ((r2.qcenterX, r2.qbottom, r2.qcenterX, r1.y), r1.y - r2.qbottom)
  else none

/-! ## JSON values and project persistence
(`src/persistence/project_serializer.py`, `project_validator.py`,
`project_models.py`)

File I/O is modelled at the JSON-value level: `ProjectSerializer.save`
writes `project.to_dict()` with `json.dump` and `load` reads it back with
`json.load`, so saving then loading a file transports exactly the JSON
value produced by `to_dict`. -/

/-- A JSON value as produced by Python's `json` module on the project
files (no floats occur in this format). -/
inductive JValue where
  | jnull
  | jbool (b : Bool)
  | jint (n : Int)
  | jstr (s : String)
  | jarr (xs : List JValue)
  | jobj (kvs : List (String × JValue))

/-- Key lookup in a JSON object (keys are unique after `json.load`). -/
def lookupJ (k : String) : List (String × JValue) → Option JValue
  | [] => none
  | (k0, v) :: rest => if k0 = k then some v else lookupJ k rest

/-- Python truthiness of a JSON-decoded value. -/
def pyTruthy : JValue → Bool
  | .jnull => false
  | .jbool b => b
  | .jint n => n != 0
  | .jstr s => !s.isEmpty
  | .jarr xs => !xs.isEmpty
  | .jobj kvs => !kvs.isEmpty

/-- Python `str()`/f-string rendering of a JSON-decoded value, as used by
`f"{frame.title} copy"` and title display.  Composite values render to an
unspecified placeholder (no claim depends on that case). -/
def pyStr : JValue → String
  | .jstr s => s
  | .jint n => toString n
  | .jbool true => "True"
  | .jbool false => "False"
  | .jnull => "None"
  | .jarr _ => "<list>"
  | .jobj _ => "<dict>"

/-- Method `ProjectValidator.validate`: the top-level object must contain the keys
`version` and `frames`, and `frames` must be a list.  A non-object document
fails too (`raw_data.keys()` raises `AttributeError`). -/
def validateProject (j : JValue) : Except String Unit :=
  match j with
  | .jobj kvs =>
    let keys := kvs.map Prod.fst
    if keys.contains "version" && keys.contains "frames" then
      match lookupJ "frames" kvs with
      | some (.jarr _) => .ok ()
      | _ => .error "Invalid frames structure."
    else .error "Invalid .dio file. Missing keys"
  | _ => .error "AttributeError: keys"

/-- The keyword parameters of `FrameModel`, i.e.
`inspect.signature(FrameModel).parameters.keys()`. -/
def frameKeys : List String :=
  ["id", "title", "x", "y", "width", "height", "bg_color", "border_color",
   "radii", "locked", "visible", "fill_enabled"]

/-- A loaded `FrameModel`: Python dataclasses do not check field types at
runtime, so every field holds whatever JSON value the file supplied (or the
per-field default). -/
structure RawFrame where
  id : JValue
  title : JValue
  x : JValue
  y : JValue
  width : JValue
  height : JValue
  bg_color : JValue
  border_color : JValue
  radii : JValue
  locked : JValue
  visible : JValue
  fill_enabled : JValue

/-- The default corner radii installed by `FrameModel.__post_init__` when
`radii` is absent. -/
def defaultRadiiJ : JValue :=
  .jobj [("tl", .jint 0), ("tr", .jint 0), ("bl", .jint 0), ("br", .jint 0)]

/-- Construction of one `FrameModel(**{k: v for k, v in frame_dict.items()
if k in frame_keys})`: a non-object entry raises (`.items()`), a missing
`id` raises (`id` has no default), every other missing key falls back to
the dataclass default, unknown keys are dropped. -/
def parseFrame (j : JValue) : Except String RawFrame :=
  match j with
  | .jobj kvs =>
    let kvs := kvs.filter (fun kv => frameKeys.contains kv.1)
    match lookupJ "id" kvs with
    | none => .error "TypeError: missing required argument id"
    | some idv =>
      .ok { id := idv
            title := (lookupJ "title" kvs).getD (.jstr "Frame")
            x := (lookupJ "x" kvs).getD (.jint 100)
            y := (lookupJ "y" kvs).getD (.jint 100)
            width := (lookupJ "width" kvs).getD (.jint 200)
            height := (lookupJ "height" kvs).getD (.jint 200)
            bg_color := (lookupJ "bg_color" kvs).getD (.jstr "#2c3e50")
            border_color := (lookupJ "border_color" kvs).getD (.jstr "#ffffff")
            radii := (lookupJ "radii" kvs).getD defaultRadiiJ
            locked := (lookupJ "locked" kvs).getD (.jbool false)
            visible := (lookupJ "visible" kvs).getD (.jbool true)
            fill_enabled := (lookupJ "fill_enabled" kvs).getD (.jbool true) }
  | _ => .error "AttributeError: items"

/-- The frame list comprehension of `ProjectSerializer.load`: the first
failing entry aborts the whole load. -/
def parseFrames : List JValue → Except String (List RawFrame)
  | [] => .ok []
  | j :: rest =>
    match parseFrame j with
    | .error e => .error e
    | .ok f =>
      match parseFrames rest with
      | .error e => .error e
      | .ok fs => .ok (f :: fs)

/-- A loaded `ProjectModel`. -/
structure RawProject where
  version : JValue
  app_version : JValue
  created_at : JValue
  frames : List RawFrame

/-- Method `ProjectSerializer.load` after `json.load`: validate, build the frame
models, and assemble the project (`app_version` and `created_at` have
`raw.get` defaults). -/
def loadProject (j : JValue) : Except String RawProject :=
  match validateProject j with
  | .error e => .error e
  | .ok _ =>
    match j with
    | .jobj kvs =>
      match lookupJ "frames" kvs with
      | some (.jarr fs) =>
        match parseFrames fs with
        | .error e => .error e
        | .ok frames =>
          .ok { version := (lookupJ "version" kvs).getD .jnull
                app_version := (lookupJ "app_version" kvs).getD (.jstr "unknown")
                created_at := (lookupJ "created_at" kvs).getD (.jstr "")
                frames := frames }
      | _ => .error "unreachable: validated"
    | _ => .error "unreachable: validated"

/-- A `FrameModel` as built by `FrameManager._export_current_project`:
all fields carry their intended types there. -/
structure FrameModel where
  id : String
  title : String
  x : Int
  y : Int
  width : Int
  height : Int
  bg_color : String
  border_color : String
  radii : List (String × Int)
  locked : Bool
  visible : Bool
  fill_enabled : Bool
deriving DecidableEq

/-- A `ProjectModel` as built by `_export_current_project`. -/
structure ProjectModel where
  version : String
  app_version : String
  created_at : String
  frames : List FrameModel

/-- Serialisation `dataclasses.asdict` of a `FrameModel`: a JSON object with the twelve
fields in declaration order; the radii dictionary keeps its key order. -/
def frameToDict (f : FrameModel) : JValue :=
  .jobj [("id", .jstr f.id), ("title", .jstr f.title), ("x", .jint f.x),
         ("y", .jint f.y), ("width", .jint f.width), ("height", .jint f.height),
         ("bg_color", .jstr f.bg_color), ("border_color", .jstr f.border_color),
         ("radii", .jobj (f.radii.map (fun kv => (kv.1, JValue.jint kv.2)))),
         ("locked", .jbool f.locked), ("visible", .jbool f.visible),
         ("fill_enabled", .jbool f.fill_enabled)]

/-- Method `ProjectModel.to_dict`, the JSON value written by
`ProjectSerializer.save`. -/
def projectToDict (p : ProjectModel) : JValue :=
  .jobj [("version", .jstr p.version), ("app_version", .jstr p.app_version),
         ("created_at", .jstr p.created_at),
         ("frames", .jarr (p.frames.map frameToDict))]

/-- The raw frame that loading a saved typed frame should reproduce: every
field wrapped back into its JSON value. -/
def frameToRaw (f : FrameModel) : RawFrame :=
  { id := .jstr f.id, title := .jstr f.title, x := .jint f.x, y := .jint f.y,
    width := .jint f.width, height := .jint f.height,
    bg_color := .jstr f.bg_color, border_color := .jstr f.border_color,
    radii := .jobj (f.radii.map (fun kv => (kv.1, JValue.jint kv.2))),
    locked := .jbool f.locked, visible := .jbool f.visible,
    fill_enabled := .jbool f.fill_enabled }

/-! ## Frame manager (`FrameManager` in `src/manager.py`)

`MeasureFrame` objects are identified by a surrogate id `fid` standing for
Python object identity.  A frame's colors are either `QColor` values (from
the palette) or the raw JSON value handed to the constructor by the import
path — Python stores whichever object it is given. -/

/-- A frame color: a `QColor(r, g, b, a)` or a raw value stored as-is. -/
inductive FColor where
  | qc (r g b a : Int)
  | rawv (j : JValue)

/-- The manager-level state of one `MeasureFrame`. -/
structure MFrame where
  fid : Nat
  number : Nat
  title : String
  geom : Rect
  radii : List (String × Int)
  bg : FColor
  border : FColor
  locked : Bool
  visible : Bool
  fill : Bool

/-- The mutable state owned by `FrameManager`. -/
structure MgrState where
  frames : List MFrame
  selected : Option Nat
  projectPath : Option String
  dirty : Bool
  colorIdx : Nat

/-- Constant `Config.FRAME_COLORS`: the cyclic background/border palette. -/
def FRAME_COLORS : List (FColor × FColor) :=
  [(.qc 0 180 255 40, .qc 0 180 255 220),
   (.qc 46 204 113 40, .qc 46 204 113 220),
   (.qc 231 76 60 40, .qc 231 76 60 220),
   (.qc 155 89 182 40, .qc 155 89 182 220),
   (.qc 241 196 15 40, .qc 241 196 15 220),
   (.qc 230 126 34 40, .qc 230 126 34 220),
   (.qc 26 188 156 40, .qc 26 188 156 220)]

/-- Palette access `Config.FRAME_COLORS[i % len(Config.FRAME_COLORS)]`. -/
def paletteAt (i : Nat) : FColor × FColor :=
  (FRAME_COLORS.get? (i % FRAME_COLORS.length)).getD (.qc 0 0 0 0, .qc 0 0 0 0)

/-- Method `FrameManager._handle_duplicate_frame`: a frame not in the list is
ignored; otherwise a new `MeasureFrame` is built with the *next palette
colors* (advancing the color index), given the original's geometry
translated by `(20, 20)` (through `setGeometry`, hence the widget size
limits), the original's title suffixed `" copy"`, and a copy of the
original's corner radii; it is appended and selected. -/
def handleDuplicateFrame (st : MgrState) (fid : Nat) (newFid : Nat) (fillSetting : Bool) :
    MgrState :=
  match st.frames.find? (fun f => f.fid = fid) with
  | none => st
  | some f =>
    let newName := f.title ++ " copy"
    let pal := paletteAt st.colorIdx
    let g := f.geom
    let nf : MFrame :=
      { fid := newFid
        number := st.frames.length + 1
        title := newName
        geom := qtSetGeometry (g.x + 20) (g.y + 20) g.w g.h
        radii := f.radii
        bg := pal.1
        border := pal.2
        locked := false
        visible := true
        fill := fillSetting }
    { st with frames := st.frames ++ [nf], selected := some newFid,
              colorIdx := st.colorIdx + 1, dirty := true }

/-- Method `MeasureFrame.set_frame_number`: the title is rewritten to the new
default only when it still equals the old default `"Frame {n}"`. -/
def setFrameNumber (f : MFrame) (n : Nat) : MFrame :=
  let t := if f.title = "Frame " ++ toString f.number then "Frame " ++ toString n else f.title
  { f with title := t, number := n }

/-- Method `FrameManager._renumber_frames`: `enumerate(self.frames, 1)` calling
`set_frame_number` in order. -/
def renumberFrom : Nat → List MFrame → List MFrame
  | _, [] => []
  | n, f :: fs => setFrameNumber f n :: renumberFrom (n + 1) fs

/-- Python's `list.remove`: drop the first occurrence (here: by identity). -/
def removeById : List MFrame → Nat → List MFrame
  | [], _ => []
  | f :: fs, i => if f.fid = i then fs else f :: removeById fs i

/-- Method `FrameManager._on_frame_closing`: remove the closing frame from the
list, let the selection fall back to the new last frame (or none) when the
closed frame was selected, renumber the remaining frames from 1, and mark
the project dirty. -/
def onFrameClosing (st : MgrState) (fid : Nat) : MgrState :=
  let frames1 := removeById st.frames fid
  let sel := if st.selected = some fid then (frames1.getLast?).map (fun f => f.fid)
             else st.selected
  { st with frames := renumberFrom 1 frames1, selected := sel, dirty := true }

/-! ### Project import (`FrameManager.import_design_from_path`) -/

/-- Constant `Config.COLOR_BG`, the constructor fallback when the passed background
color is falsy. -/
def COLOR_BG : FColor := .qc 0 180 255 40

/-- Constant `Config.COLOR_BORDER`, the fallback border color. -/
def COLOR_BORDER : FColor := .qc 0 180 255 220

/-- Use of `radii_dict.values()` in `on_radius_value_changed` requires
a dict with integer values; anything else raises mid-rebuild. -/
def radiiOfJ : JValue → Option (List (String × Int))
  | .jobj kvs =>
    kvs.foldr (fun kv acc =>
      match kv.2, acc with
      | .jint n, some rest => some ((kv.1, n) :: rest)
      | _, _ => none) (some [])
  | _ => none

/-- Rebuilding one overlay from a loaded frame inside the import loop:
the constructor keeps the raw colors (falling back to the config colors on
falsy values, per `bg_color or Config.COLOR_BG`), `setGeometry` raises a
`TypeError` unless all four geometry fields are integers, `set_title`
renders any value, `set_locked`/`setVisible` store truthiness, and
`on_radius_value_changed` requires an integer-valued dict. -/
def buildOverlay (fillSetting : Bool) (num : Nat) (fid : Nat) (rf : RawFrame) :
    Except String MFrame :=
  match rf.x, rf.y, rf.width, rf.height with
  | .jint x, .jint y, .jint w, .jint h =>
    match radiiOfJ rf.radii with
    | none => .error "TypeError: bad radii"
    | some rads =>
      .ok { fid := fid
            number := num
            title := pyStr rf.title
            geom := qtSetGeometry x y w h
            radii := rads
            bg := if pyTruthy rf.bg_color then .rawv rf.bg_color else COLOR_BG
            border := if pyTruthy rf.border_color then .rawv rf.border_color else COLOR_BORDER
            locked := pyTruthy rf.locked
            visible := pyTruthy rf.visible
            fill := fillSetting }
  | _, _, _, _ => .error "TypeError: setGeometry"

/-- The import rebuild loop: each overlay is appended to `self.frames` as it
is built (`frame_number = len(self.frames) + 1`); the first failing frame
aborts the loop, leaving the successfully built prefix in place.  Returns
the frame list and whether the loop ran to completion. -/
def importFrames (fillSetting : Bool) (fidBase : Nat) :
    List RawFrame → List MFrame → List MFrame × Bool
  | [], acc => (acc, true)
  | rf :: rest, acc =>
    match buildOverlay fillSetting (acc.length + 1) (fidBase + acc.length) rf with
    | .error _ => (acc, false)
    | .ok f => importFrames fillSetting fidBase rest (acc ++ [f])

/-- The net effect of the frame-clearing loop (`for f in list(self.frames):
f.close()`) on the selection: closing each frame runs `_on_frame_closing`,
so a selection pointing at one of the closed frames degrades to `None`
while any other value is untouched. -/
def selectionAfterClearing (st : MgrState) : Option Nat :=
  match st.selected with
  | none => none
  | some s => if st.frames.any (fun f => f.fid = s) then none else some s

/-- Method `FrameManager.import_design_from_path` on a document `doc` (already
`json.load`-ed).  A load failure (including validation) raises before any
mutation, so the state survives unchanged.  On a successful load the old
frames are closed, `project_path` is set, and the rebuild loop runs; a
mid-loop `TypeError` is caught by the same `except`, leaving the partially
rebuilt state in place.  `fidBase` supplies identities for new overlays. -/
def importDesignFromPath (st : MgrState) (path : String) (doc : JValue)
    (fillSetting : Bool) (fidBase : Nat) : MgrState :=
  match loadProject doc with
  | .error _ => st
  | .ok proj =>
    let st1 : MgrState :=
      { frames := []
        selected := selectionAfterClearing st
        projectPath := some path
        dirty := if st.frames.isEmpty then st.dirty else true
        colorIdx := st.colorIdx }
    match importFrames fillSetting fidBase proj.frames [] with
    | (fs, true) =>
      { st1 with frames := fs,
                 selected := match fs with
                             | [] => st1.selected
                             | f :: _ => some f.fid,
                 dirty := false }
    | (fs, false) => { st1 with frames := fs }

/-! ## Concrete states used by the counterexamples and witnesses -/

/-- Red component of a color (used to tell two palette colors apart). -/
def FColor.redPart : FColor → Int
  | .qc r _ _ _ => r
  | .rawv _ => -1

/-- A default-titled frame with the default geometry and zero radii. -/
def mkTestFrame (fid num : Nat) (t : String) : MFrame :=
  { fid := fid, number := num, title := t, geom := ⟨0, 0, 400, 250⟩,
    radii := [("tl", 0), ("tr", 0), ("bl", 0), ("br", 0)],
    bg := COLOR_BG, border := COLOR_BORDER, locked := false,
    visible := true, fill := true }

/-- A single frame carrying the first palette colors, as `create_frame`
produces it. -/
def frame0dup : MFrame :=
  { mkTestFrame 1 1 "Frame 1" with bg := (paletteAt 0).1, border := (paletteAt 0).2 }

/-- Manager state after creating one frame: `color_idx` already advanced
to `1`. -/
def stDup : MgrState := ⟨[frame0dup], some 1, none, false, 1⟩

/-- Three default-named frames, the middle one selected. -/
def stTrio : MgrState :=
  ⟨[mkTestFrame 1 1 "Frame 1", mkTestFrame 2 2 "Frame 2", mkTestFrame 3 3 "Frame 3"],
   some 2, none, false, 3⟩

/-- A custom-titled frame next to a default-named one. -/
def stCustom : MgrState :=
  ⟨[mkTestFrame 1 1 "Hero", mkTestFrame 2 2 "Frame 2"], some 1, none, false, 2⟩

/-- A state with one frame, an established project path and a clean dirty
flag, about to run an import. -/
def stImp : MgrState := ⟨[frame0dup], some 1, some "a.dio", false, 1⟩

/-- A project document missing the required `version` key. -/
def docMissingVersion : JValue := .jobj [("frames", .jarr [])]

/-- A structurally valid document whose only frame has a string in the
integer field `x`. -/
def docBadFrame : JValue :=
  .jobj [("version", .jstr "1.0"),
         ("frames", .jarr [.jobj [("id", .jstr "u"), ("x", .jstr "bad")]])]

/-! # Theorems -/

/-! ## Shared helper lemmas -/

theorem qtApplySizeLimit_bounds (v : Int) :
    MIN_SIZE ≤ qtApplySizeLimit v ∧ qtApplySizeLimit v ≤ MAX_SIZE := by
  unfold qtApplySizeLimit MIN_SIZE MAX_SIZE
  omega

theorem qtSetGeometry_w (x y w h : Int) : (qtSetGeometry x y w h).w = qtApplySizeLimit w := rfl

theorem qtSetGeometry_h (x y w h : Int) : (qtSetGeometry x y w h).h = qtApplySizeLimit h := rfl

theorem clampedMove_contained (px py cw ch : Int) (s : Rect)
    (hw : cw ≤ s.w) (hh : ch ≤ s.h) :
    containedIn ⟨max s.x (min (s.qright - cw) px), max s.y (min (s.qbottom - ch) py), cw, ch⟩ s := by
  unfold containedIn Rect.xEnd Rect.yEnd Rect.qright Rect.qbottom at *
  dsimp only
  omega

/-! ## C2: resize results stay inside `[MIN_SIZE, MAX_SIZE]` -/

/-- C2: for every wheel-tick resize and every edge-handle drag resize, with
any pointer delta (arbitrarily large, positive or negative), the resulting
width and height each lie in `[10, 4000]`. -/
theorem C2_resize_clamped :
    (∀ g s delta, MIN_SIZE ≤ (wheelResize g s delta).w ∧ (wheelResize g s delta).w ≤ MAX_SIZE ∧
      MIN_SIZE ≤ (wheelResize g s delta).h ∧ (wheelResize g s delta).h ≤ MAX_SIZE) ∧
    (∀ mode orig dx dy cw ch s, mode ≠ ResizeMode.MOVE →
      MIN_SIZE ≤ (performDrag mode orig dx dy cw ch s).w ∧
      (performDrag mode orig dx dy cw ch s).w ≤ MAX_SIZE ∧
      MIN_SIZE ≤ (performDrag mode orig dx dy cw ch s).h ∧
      (performDrag mode orig dx dy cw ch s).h ≤ MAX_SIZE) := by
  constructor
  · intro g s delta
    exact ⟨(qtApplySizeLimit_bounds _).1, (qtApplySizeLimit_bounds _).2,
           (qtApplySizeLimit_bounds _).1, (qtApplySizeLimit_bounds _).2⟩
  · intro mode orig dx dy cw ch s hmode
    simp only [performDrag, if_neg hmode]
    exact ⟨(qtApplySizeLimit_bounds _).1, (qtApplySizeLimit_bounds _).2,
           (qtApplySizeLimit_bounds _).1, (qtApplySizeLimit_bounds _).2⟩

/-- Witness for C2 at a huge positive delta on a right-edge drag. -/
theorem C2_resize_clamped_witness :
    MIN_SIZE ≤ (performDrag ResizeMode.RESIZE_RIGHT ⟨0, 0, 100, 100⟩ 99999 0 100 100
      ⟨0, 0, 500, 500⟩).w :=
  (C2_resize_clamped.2 ResizeMode.RESIZE_RIGHT ⟨0, 0, 100, 100⟩ 99999 0 100 100
    ⟨0, 0, 500, 500⟩ (by decide)).1

/-! ## C3: screen containment after move operations -/

/-- C3 counterexample: a frame wider than the screen stays pinned at the
screen's left edge but overflows on the right, so the claim fails as
stated (it is universally quantified over all frames and screens). -/
theorem C3_counterexample :
    ¬ containedIn (performDrag ResizeMode.MOVE ⟨0, 0, 200, 200⟩ 0 0 200 200 ⟨0, 0, 100, 100⟩)
      ⟨0, 0, 100, 100⟩ := by
  decide

/-- C3 (amended): after a pointer move drag or a directional nudge, the
frame lies fully inside the containing screen's available rectangle,
provided the frame is no larger than the screen on each axis. -/
theorem C3_move_containment :
    (∀ start dx dy cw ch s, cw ≤ Rect.w s → ch ≤ Rect.h s →
      containedIn (performDrag ResizeMode.MOVE start dx dy cw ch s) s) ∧
    (∀ g dir shift s, Rect.w g ≤ Rect.w s → Rect.h g ≤ Rect.h s →
      containedIn (handleMoveFrame g false dir shift s) s) := by
  constructor
  · intro start dx dy cw ch s hw hh
    exact clampedMove_contained _ _ _ _ _ hw hh
  · intro g dir shift s hw hh
    exact clampedMove_contained _ _ _ _ _ hw hh

/-- Witness for C3 at a concrete drag and a concrete nudge. -/
theorem C3_move_containment_witness :
    containedIn (performDrag ResizeMode.MOVE ⟨5, 5, 50, 50⟩ 30 40 50 50 ⟨0, 0, 100, 100⟩)
      ⟨0, 0, 100, 100⟩ ∧
    containedIn (handleMoveFrame ⟨5, 5, 50, 50⟩ false "right" true ⟨0, 0, 100, 100⟩)
      ⟨0, 0, 100, 100⟩ :=
  ⟨C3_move_containment.1 ⟨5, 5, 50, 50⟩ 30 40 50 50 ⟨0, 0, 100, 100⟩ (by decide) (by decide),
   C3_move_containment.2 ⟨5, 5, 50, 50⟩ "right" true ⟨0, 0, 100, 100⟩ (by decide) (by decide)⟩

/-! ## C4: spacing calculator on the specification's example -/

/-- C4: evaluation of the spacing calculator at the claim's input
`A = (0,0,100,100)`, `B = (200,0,100,100)`.  The code produces a horizontal
measurement of `101` px on the line `y = 49` (because Qt's `right()` and
`center()` use the inclusive-edge convention), where the claim requires
`100` px at `y = 50`; the vertical measurement is absent as claimed. -/
theorem C4_spacing_eval :
    spacingH ⟨0, 0, 100, 100⟩ ⟨200, 0, 100, 100⟩ = some ((99, 49, 200, 49), 101) ∧
    spacingV ⟨0, 0, 100, 100⟩ ⟨200, 0, 100, 100⟩ = none := by
  decide

/-! ## C9: manual dimension input -/

/-- C9 counterexample: on a screen wider than `MAX_SIZE`, an entered width
of `4500` is cut to `4000` by the widget's maximum size, while the claimed
formula (clamping only to `[MIN_SIZE, screenBound - frameOrigin]`) would
give `4500`. -/
theorem C9_counterexample :
    (onDimensionInput ⟨0, 0, 100, 100⟩ ⟨0, 0, 5200, 1000⟩ "width" 4500).w = 4000 ∧
    max MIN_SIZE (min 4500 (Rect.qright ⟨0, 0, 5200, 1000⟩ - (0 : Int))) = 4500 := by
  decide

/-- C9 (amended): manual numeric input sets one axis to the entered value
clamped to `[MIN_SIZE, screenBound - frameOrigin]` and additionally capped
at `MAX_SIZE`; the origin and the other axis are unchanged, and the minimum
size wins when the screen bound falls below `MIN_SIZE`. -/
theorem C9_dimension_input :
    ∀ (g s : Rect) (value : Int),
      (MIN_SIZE ≤ g.h → g.h ≤ MAX_SIZE →
        onDimensionInput g s "width" value =
          ⟨g.x, g.y, min MAX_SIZE (max MIN_SIZE (min value (s.qright - g.x))), g.h⟩) ∧
      (MIN_SIZE ≤ g.w → g.w ≤ MAX_SIZE → ∀ axis, axis ≠ "width" →
        onDimensionInput g s axis value =
          ⟨g.x, g.y, g.w, min MAX_SIZE (max MIN_SIZE (min value (s.qbottom - g.y)))⟩) := by
  intro g s value
  constructor
  · intro h1 h2
    simp only [onDimensionInput, if_true, qtSetGeometry, Rect.mk.injEq, true_and, and_true,
      String.reduceEq, ite_true]
    refine ⟨?_, ?_⟩ <;> unfold qtApplySizeLimit MIN_SIZE MAX_SIZE at * <;> omega
  · intro h1 h2 axis haxis
    simp only [onDimensionInput, if_neg haxis, qtSetGeometry, Rect.mk.injEq, true_and, and_true]
    refine ⟨?_, ?_⟩ <;> unfold qtApplySizeLimit MIN_SIZE MAX_SIZE at * <;> omega

/-- Witness for C9: width input `5` on a small frame becomes `10`; height
input on the same frame via the non-width axis path. -/
theorem C9_dimension_input_witness :
    onDimensionInput ⟨0, 0, 100, 100⟩ ⟨0, 0, 800, 600⟩ "width" 5 =
      ⟨0, 0, min MAX_SIZE (max MIN_SIZE (min 5 (Rect.qright ⟨0, 0, 800, 600⟩ - 0))), 100⟩ ∧
    onDimensionInput ⟨0, 0, 100, 100⟩ ⟨0, 0, 800, 600⟩ "height" 300 =
      ⟨0, 0, 100, min MAX_SIZE (max MIN_SIZE (min 300 (Rect.qbottom ⟨0, 0, 800, 600⟩ - 0)))⟩ :=
  ⟨(C9_dimension_input ⟨0, 0, 100, 100⟩ ⟨0, 0, 800, 600⟩ 5).1 (by decide) (by decide),
   (C9_dimension_input ⟨0, 0, 100, 100⟩ ⟨0, 0, 800, 600⟩ 300).2 (by decide) (by decide)
     "height" (by decide)⟩

/-! ## C10: value-equal rectangles are skipped by the matcher -/

theorem buildMatches_skip_filter (pts : Rect → List ℚ) (sp : Rect → Span) (m : Rect)
    (os : List Rect) :
    buildMatches pts sp m os = buildMatches pts sp m (os.filter (fun r => r ≠ m)) := by
  unfold buildMatches
  generalize ([] : Matches) = acc
  induction os generalizing acc with
  | nil => rfl
  | cons r rest ih =>
    by_cases h : r = m
    · simp [List.foldl_cons, List.filter_cons, h, ih]
    · simp [List.foldl_cons, List.filter_cons, h, ih]

/-- C10: the matcher skips every rectangle value-equal to the moving one, so
a coincident rectangle contributes no matches, and a coincident rectangle as
the only other rectangle produces no guides at all. -/
theorem C10_equal_rect_skipped :
    ∀ (m : Rect) (os : List Rect),
      updateGuides m os = updateGuides m (os.filter (fun r => r ≠ m)) ∧
      updateGuides m [m] = [] := by
  intro m os
  constructor
  · simp only [updateGuides, vGuides, hGuides, matchesX, matchesY]
    rw [← buildMatches_skip_filter Rect.gxs Rect.spanY m os,
        ← buildMatches_skip_filter Rect.gys Rect.spanX m os]
  · simp [updateGuides, vGuides, hGuides, matchesX, matchesY, buildMatches]

/-! ## C7: frame duplication -/

/-- C7 counterexample: duplicating the palette-0-colored frame in `stDup`
(where the color index has advanced to 1) yields a frame with the *second*
palette border color, not the original's: the red components differ
(46 vs 0), refuting the claim that the duplicate's colors equal the
original's. -/
theorem C7_counterexample :
    ((handleDuplicateFrame stDup 1 2 true).frames.getLast?).map (fun f => f.border.redPart) ≠
      some frame0dup.border.redPart := by
  decide

/-- C7 (amended): duplicating a frame `f` appends a new frame whose
geometry is `f`'s translated by `(20, 20)`, whose radii equal `f`'s, whose
title is `f`'s title suffixed `" copy"` — but whose fill and border colors
are the next palette pair (the color index advances), not `f`'s colors. -/
theorem C7_duplicate_frame :
    ∀ (st : MgrState) (fid newFid : Nat) (fill : Bool) (f : MFrame),
      st.frames.find? (fun fr => fr.fid = fid) = some f →
      MIN_SIZE ≤ f.geom.w → f.geom.w ≤ MAX_SIZE → MIN_SIZE ≤ f.geom.h → f.geom.h ≤ MAX_SIZE →
      ∃ nf, handleDuplicateFrame st fid newFid fill =
          { st with frames := st.frames ++ [nf], selected := some newFid,
                    colorIdx := st.colorIdx + 1, dirty := true } ∧
        nf.geom = ⟨f.geom.x + 20, f.geom.y + 20, f.geom.w, f.geom.h⟩ ∧
        nf.radii = f.radii ∧ nf.title = f.title ++ " copy" ∧
        nf.bg = (paletteAt st.colorIdx).1 ∧ nf.border = (paletteAt st.colorIdx).2 := by
  intro st fid newFid fill f hfind hw1 hw2 hh1 hh2
  unfold handleDuplicateFrame
  rw [hfind]
  refine ⟨_, rfl, ?_, rfl, rfl, rfl, rfl⟩
  simp only [qtSetGeometry, Rect.mk.injEq, true_and]
  constructor <;> unfold qtApplySizeLimit MIN_SIZE MAX_SIZE at * <;> omega

/-- Witness for C7 on the concrete one-frame state. -/
theorem C7_duplicate_frame_witness :
    ∃ nf, handleDuplicateFrame stDup 1 2 true =
        { stDup with frames := stDup.frames ++ [nf], selected := some 2,
                     colorIdx := stDup.colorIdx + 1, dirty := true } ∧
      nf.geom = ⟨frame0dup.geom.x + 20, frame0dup.geom.y + 20, frame0dup.geom.w,
                 frame0dup.geom.h⟩ ∧
      nf.radii = frame0dup.radii ∧ nf.title = frame0dup.title ++ " copy" ∧
      nf.bg = (paletteAt stDup.colorIdx).1 ∧ nf.border = (paletteAt stDup.colorIdx).2 :=
  C7_duplicate_frame stDup 1 2 true frame0dup rfl (by decide) (by decide) (by decide) (by decide)

/-! ## C8: frame deletion, selection fallback and renumbering -/

theorem renumberFrom_map_fid (n : Nat) (fs : List MFrame) :
    (renumberFrom n fs).map MFrame.fid = fs.map MFrame.fid := by
  induction fs generalizing n with
  | nil => rfl
  | cons f fs ih => simp [renumberFrom, setFrameNumber, ih]

theorem renumberFrom_map_title (n : Nat) (fs : List MFrame) :
    (renumberFrom n fs).map MFrame.title =
      fs.mapIdx (fun i f =>
        if f.title = "Frame " ++ toString f.number then "Frame " ++ toString (n + i)
        else f.title) := by
  induction fs generalizing n with
  | nil => rfl
  | cons f fs ih =>
    simp only [renumberFrom, List.map_cons, List.mapIdx_cons, setFrameNumber, ih]
    congr 1
    have : (fun i (f : MFrame) =>
        if f.title = "Frame " ++ toString f.number then "Frame " ++ toString (n + 1 + i)
        else f.title) =
        (fun i (f : MFrame) =>
        if f.title = "Frame " ++ toString f.number then "Frame " ++ toString (n + (i + 1))
        else f.title) := by
      funext i f
      have : n + 1 + i = n + (i + 1) := by omega
      rw [this]
    rw [this]

/-- C8: deleting a frame removes it (first occurrence) preserving order;
when it was selected the selection falls back to the last remaining frame
or none; the remaining frames are renumbered from 1 in list order, a title
being rewritten exactly when it still equals the old default `"Frame N"`.
Concretely, deleting frame 2 of three default-named frames leaves titles
`["Frame 1", "Frame 2"]` (selection falling back to the last frame), and a
custom-titled frame is never renamed. -/
theorem C8_delete_and_renumber :
    ∀ (st : MgrState) (fid : Nat),
      ((onFrameClosing st fid).frames.map MFrame.fid =
        (removeById st.frames fid).map MFrame.fid) ∧
      ((onFrameClosing st fid).frames.map MFrame.title =
        (removeById st.frames fid).mapIdx (fun i f =>
          if f.title = "Frame " ++ toString f.number then "Frame " ++ toString (1 + i)
          else f.title)) ∧
      (st.selected = some fid →
        (onFrameClosing st fid).selected = ((removeById st.frames fid).getLast?).map MFrame.fid) ∧
      ((onFrameClosing stTrio 2).frames.map MFrame.title = ["Frame 1", "Frame 2"] ∧
        (onFrameClosing stTrio 2).selected = some 3) ∧
      (onFrameClosing stCustom 2).frames.map MFrame.title = ["Hero"] := by
  intro st fid
  refine ⟨?_, ?_, ?_, by decide, by decide⟩
  · simp [onFrameClosing, renumberFrom_map_fid]
  · simp [onFrameClosing, renumberFrom_map_title]
  · intro hsel
    simp [onFrameClosing, hsel]

/-- Witness for C8's selection-fallback hypothesis on the concrete trio. -/
theorem C8_delete_and_renumber_witness :
    (onFrameClosing stTrio 2).selected = ((removeById stTrio.frames 2).getLast?).map MFrame.fid :=
  (C8_delete_and_renumber stTrio 2).2.2.1 rfl

/-! ## C6: load validation and (partial) state mutation -/

/-- C6 counterexample: a structurally valid file whose frame has a string
in the integer field `x` passes `ProjectValidator.validate` and
`FrameModel` construction, then blows up at `setGeometry` *after* the frame
list was cleared and the project path reassigned: the state is mutated
although the load aborted with an error dialog. -/
theorem C6_counterexample :
    (importDesignFromPath stImp "b.dio" docBadFrame true 10).projectPath ≠ stImp.projectPath ∧
    (importDesignFromPath stImp "b.dio" docBadFrame true 10).frames.length ≠
      stImp.frames.length := by
  decide

/-- C6 (amended): a load whose document fails `ProjectSerializer.load`
(missing `version`/`frames`, non-list `frames`, non-object document or
frame entries, missing frame `id`) raises before any mutation: the frame
list, the selection and the project path are exactly as before.  Wrong
*types* in per-frame fields, however, are not validated and abort
mid-rebuild with the state partially mutated (see the counterexample). -/
theorem C6_validation_abort :
    ∀ (st : MgrState) (path : String) (doc : JValue) (fill : Bool) (base : Nat) (e : String),
      loadProject doc = Except.error e →
      importDesignFromPath st path doc fill base = st := by
  intro st path doc fill base e h
  unfold importDesignFromPath
  rw [h]

/-- Witness for C6 on a document missing the `version` key. -/
theorem C6_validation_abort_witness :
    importDesignFromPath stImp "b.dio" docMissingVersion true 10 = stImp :=
  C6_validation_abort stImp "b.dio" docMissingVersion true 10
    "Invalid .dio file. Missing keys" rfl

/-! ## C5: save/load round-trip -/

theorem parseFrame_frameToDict (f : FrameModel) :
    parseFrame (frameToDict f) = Except.ok (frameToRaw f) := rfl

theorem parseFrames_map (fs : List FrameModel) :
    parseFrames (fs.map frameToDict) = Except.ok (fs.map frameToRaw) := by
  induction fs with
  | nil => rfl
  | cons f fs ih => simp [parseFrames, parseFrame_frameToDict, ih]

/-- C5: loading the JSON value written by `ProjectSerializer.save` yields a
project with the same number of frames, in the same order, every frame
field (`x`, `y`, `width`, `height`, `bg_color`, `border_color`, `radii`,
`locked`, `visible`, `fill_enabled` — and `id`, `title`) carrying exactly
the original value (`frameToRaw` wraps each original field back into its
JSON value, and `List.map` preserves length and order). -/
theorem C5_roundtrip :
    ∀ p : ProjectModel,
      loadProject (projectToDict p) = Except.ok
        { version := JValue.jstr p.version, app_version := JValue.jstr p.app_version,
          created_at := JValue.jstr p.created_at, frames := p.frames.map frameToRaw } := by
  intro p
  have h := parseFrames_map p.frames
  conv_lhs =>
    rw [show loadProject (projectToDict p) =
      (match parseFrames (List.map frameToDict p.frames) with
       | Except.error e => Except.error e
       | Except.ok frames => Except.ok
          { version := JValue.jstr p.version, app_version := JValue.jstr p.app_version,
            created_at := JValue.jstr p.created_at, frames := frames }) from rfl]
  rw [h]

/-! ## C1: lemmas about the smart-guide accumulator -/

theorem spansFold_pair (sel : Span → ℚ) (op : ℚ → ℚ → ℚ) (s1 s2 : Span) :
    spansFold sel op [s1, s2] = op (sel s1) (sel s2) := rfl

theorem spansFold_append_ne (sel : Span → ℚ) (op : ℚ → ℚ → ℚ)
    (hassoc : ∀ a b c, op (op a b) c = op a (op b c))
    (l : List Span) (hl : l ≠ []) (s1 s2 : Span) :
    spansFold sel op (l ++ [s1, s2]) = op (spansFold sel op l) (op (sel s1) (sel s2)) := by
  induction l with
  | nil => exact absurd rfl hl
  | cons a t ih =>
    cases t with
    | nil => rfl
    | cons b t2 =>
      have ih2 := ih (List.cons_ne_nil b t2)
      calc spansFold sel op ((a :: b :: t2) ++ [s1, s2])
          = op (sel a) (spansFold sel op ((b :: t2) ++ [s1, s2])) := rfl
        _ = op (sel a) (op (spansFold sel op (b :: t2)) (op (sel s1) (sel s2))) := by rw [ih2]
        _ = op (op (sel a) (spansFold sel op (b :: t2))) (op (sel s1) (sel s2)) :=
            (hassoc _ _ _).symm
        _ = op (spansFold sel op (a :: b :: t2)) (op (sel s1) (sel s2)) := rfl

theorem lookupSpans_addSpans_self (acc : Matches) (k : ℚ) (s1 s2 : Span) :
    lookupSpans k (addSpans acc k s1 s2) = some ((lookupSpans k acc).getD [] ++ [s1, s2]) := by
  induction acc with
  | nil => simp [addSpans, lookupSpans]
  | cons kv rest ih =>
    obtain ⟨k0, v⟩ := kv
    by_cases h : k0 = k
    · subst h
      simp [addSpans, lookupSpans]
    · simp [addSpans, lookupSpans, h, ih]

theorem lookupSpans_addSpans_ne (acc : Matches) (k k2 : ℚ) (s1 s2 : Span) (h : k2 ≠ k) :
    lookupSpans k2 (addSpans acc k s1 s2) = lookupSpans k2 acc := by
  induction acc with
  | nil => simp [addSpans, lookupSpans, Ne.symm h]
  | cons kv rest ih =>
    obtain ⟨k0, v⟩ := kv
    by_cases h0 : k0 = k
    · subst h0
      simp [addSpans, lookupSpans, Ne.symm h]
    · simp only [addSpans, if_neg h0, lookupSpans]
      rw [ih]

theorem keys_addSpans (acc : Matches) (k : ℚ) (s1 s2 : Span) :
    (addSpans acc k s1 s2).map Prod.fst =
      if k ∈ acc.map Prod.fst then acc.map Prod.fst else acc.map Prod.fst ++ [k] := by
  induction acc with
  | nil => simp [addSpans]
  | cons kv rest ih =>
    obtain ⟨k0, v⟩ := kv
    by_cases h : k0 = k
    · subst h
      simp [addSpans]
    · have hne : ¬ k = k0 := fun he => h he.symm
      simp only [addSpans, if_neg h, List.map_cons, ih, List.mem_cons, hne, false_or]
      by_cases h2 : k ∈ rest.map Prod.fst <;> simp [h2]

theorem mem_keys_addSpans (acc : Matches) (k k2 : ℚ) (s1 s2 : Span) :
    k2 ∈ (addSpans acc k s1 s2).map Prod.fst ↔ k2 ∈ acc.map Prod.fst ∨ k2 = k := by
  rw [keys_addSpans]
  by_cases h : k ∈ acc.map Prod.fst
  · rw [if_pos h]
    constructor
    · exact Or.inl
    · rintro (h2 | rfl)
      · exact h2
      · exact h
  · rw [if_neg h]
    simp

theorem nodup_keys_addSpans (acc : Matches) (k : ℚ) (s1 s2 : Span)
    (h : (acc.map Prod.fst).Nodup) : ((addSpans acc k s1 s2).map Prod.fst).Nodup := by
  rw [keys_addSpans]
  by_cases h2 : k ∈ acc.map Prod.fst
  · rwa [if_pos h2]
  · rw [if_neg h2]
    simp [List.nodup_append, h, h2]

theorem wf_addSpans : ∀ (acc : Matches), MatchesWF acc → ∀ (k : ℚ) (s1 s2 : Span),
    MatchesWF (addSpans acc k s1 s2) := by
  intro acc
  induction acc with
  | nil =>
    intro _ k s1 s2 kv hkv
    simp only [addSpans, List.mem_singleton] at hkv
    subst hkv
    simp
  | cons kv0 rest ih =>
    intro h k s1 s2
    obtain ⟨k0, v⟩ := kv0
    have hhead : v ≠ ([] : List Span) := h (k0, v) (List.mem_cons_self _ _)
    have hrest : MatchesWF rest := fun kv hkv => h kv (List.mem_cons_of_mem _ hkv)
    by_cases h0 : k0 = k
    · subst h0
      intro kv hkv
      simp only [addSpans, ite_true, if_true, eq_self_iff_true, List.mem_cons] at hkv
      rcases hkv with h1 | h1
      · subst h1
        simp
      · exact hrest kv h1
    · intro kv hkv
      simp only [addSpans, if_neg h0, List.mem_cons] at hkv
      rcases hkv with h1 | h1
      · subst h1
        exact hhead
      · exact ih hrest k s1 s2 kv h1

theorem wf_lookup {acc : Matches} (h : MatchesWF acc) {k : ℚ} {l : List Span}
    (hl : lookupSpans k acc = some l) : l ≠ [] := by
  induction acc with
  | nil => simp [lookupSpans] at hl
  | cons kv rest ih =>
    obtain ⟨k0, v⟩ := kv
    have hhead : v ≠ ([] : List Span) := h (k0, v) (List.mem_cons_self _ _)
    have hrest : MatchesWF rest := fun kv hkv => h kv (List.mem_cons_of_mem _ hkv)
    by_cases h0 : k0 = k
    · rw [lookupSpans, if_pos h0] at hl
      cases hl
      exact hhead
    · rw [lookupSpans, if_neg h0] at hl
      exact ih hrest hl

theorem lookup_of_mem_nodup : ∀ (acc : Matches) (kv : ℚ × List Span),
    (acc.map Prod.fst).Nodup → kv ∈ acc → lookupSpans kv.1 acc = some kv.2 := by
  intro acc
  induction acc with
  | nil => intro kv _ hm; simp at hm
  | cons kv0 rest ih =>
    intro kv hnd hm
    obtain ⟨k0, v⟩ := kv0
    rw [List.map_cons, List.nodup_cons] at hnd
    rcases List.mem_cons.mp hm with h1 | h1
    · subst h1
      simp [lookupSpans]
    · have hk : k0 ≠ kv.1 := by
        intro he
        have hmem : kv.1 ∈ rest.map Prod.fst := List.mem_map_of_mem Prod.fst h1
        rw [← he] at hmem
        exact hnd.1 hmem
      rw [lookupSpans, if_neg hk]
      exact ih kv hnd.2 h1

theorem inner_wf (mv : ℚ) (sm sr : Span) :
    ∀ (rvs : List ℚ) (a : Matches), MatchesWF a →
      MatchesWF (rvs.foldl (fun a2 rv => if |mv - rv| ≤ 1 then addSpans a2 mv sm sr else a2) a) := by
  intro rvs
  induction rvs with
  | nil => intro a h; exact h
  | cons rv rest ih =>
    intro a h
    simp only [List.foldl_cons]
    apply ih
    by_cases hm : |mv - rv| ≤ 1
    · rw [if_pos hm]
      exact wf_addSpans a h mv sm sr
    · rwa [if_neg hm]

theorem inner_lookup_ne (mv : ℚ) (sm sr : Span) (k : ℚ) (hk : k ≠ mv) :
    ∀ (rvs : List ℚ) (a : Matches),
      lookupSpans k
        (rvs.foldl (fun a2 rv => if |mv - rv| ≤ 1 then addSpans a2 mv sm sr else a2) a) =
      lookupSpans k a := by
  intro rvs
  induction rvs with
  | nil => intro a; rfl
  | cons rv rest ih =>
    intro a
    simp only [List.foldl_cons]
    rw [ih]
    by_cases hm : |mv - rv| ≤ 1
    · rw [if_pos hm, lookupSpans_addSpans_ne _ _ _ _ _ hk]
    · rw [if_neg hm]

theorem inner_track (sel : Span → ℚ) (op : ℚ → ℚ → ℚ)
    (hassoc : ∀ a b c, op (op a b) c = op a (op b c)) (hidem : ∀ a, op a a = a)
    (mv : ℚ) (sm sr : Span) :
    ∀ (rvs : List ℚ) (a : Matches), MatchesWF a →
      (lookupSpans mv
        (rvs.foldl (fun a2 rv => if |mv - rv| ≤ 1 then addSpans a2 mv sm sr else a2) a)).map
          (spansFold sel op) =
        if rvs.any (fun rv => |mv - rv| ≤ 1)
        then some (optUpd op ((lookupSpans mv a).map (spansFold sel op)) (op (sel sm) (sel sr)))
        else (lookupSpans mv a).map (spansFold sel op) := by
  have hdedup : ∀ (o : Option ℚ) (z : ℚ), optUpd op (some (optUpd op o z)) z = optUpd op o z := by
    intro o z
    cases o with
    | none => simp [optUpd, hidem]
    | some a => simp [optUpd, hassoc, hidem]
  have haddval : ∀ (a : Matches), MatchesWF a →
      (lookupSpans mv (addSpans a mv sm sr)).map (spansFold sel op) =
        some (optUpd op ((lookupSpans mv a).map (spansFold sel op)) (op (sel sm) (sel sr))) := by
    intro a h
    rw [lookupSpans_addSpans_self]
    cases hl : lookupSpans mv a with
    | none => simp [Option.getD, spansFold_pair, optUpd]
    | some l =>
      have hne := wf_lookup h hl
      simp only [Option.getD, Option.map_some']
      rw [spansFold_append_ne sel op hassoc l hne]
      simp [optUpd]
  intro rvs
  induction rvs with
  | nil => intro a _; simp
  | cons rv rest ih =>
    intro a h
    simp only [List.foldl_cons, List.any_cons]
    by_cases hm : |mv - rv| ≤ 1
    · rw [if_pos hm, ih _ (wf_addSpans a h mv sm sr), haddval a h]
      by_cases hr : rest.any (fun rv => |mv - rv| ≤ 1)
      · rw [if_pos hr, hdedup]
        simp [hm, hr]
      · rw [if_neg hr]
        simp [hm]
    · rw [if_neg hm, ih _ h]
      simp [hm]

theorem outer_wf (rvs : List ℚ) (sm sr : Span) :
    ∀ (mvs : List ℚ) (a : Matches), MatchesWF a →
      MatchesWF (mvs.foldl (fun a3 mv =>
        rvs.foldl (fun a2 rv => if |mv - rv| ≤ 1 then addSpans a2 mv sm sr else a2) a3) a) := by
  intro mvs
  induction mvs with
  | nil => intro a h; exact h
  | cons mv rest ih =>
    intro a h
    simp only [List.foldl_cons]
    exact ih _ (inner_wf mv sm sr rvs a h)

theorem outer_lookup_ne (rvs : List ℚ) (sm sr : Span) (k : ℚ) :
    ∀ (mvs : List ℚ) (a : Matches), k ∉ mvs →
      lookupSpans k (mvs.foldl (fun a3 mv =>
        rvs.foldl (fun a2 rv => if |mv - rv| ≤ 1 then addSpans a2 mv sm sr else a2) a3) a) =
      lookupSpans k a := by
  intro mvs
  induction mvs with
  | nil => intro a _; rfl
  | cons mv rest ih =>
    intro a hk
    have hk1 : k ≠ mv := fun he => hk (he ▸ List.mem_cons_self _ _)
    have hk2 : k ∉ rest := fun hm => hk (List.mem_cons_of_mem _ hm)
    simp only [List.foldl_cons]
    rw [ih _ hk2, inner_lookup_ne mv sm sr k hk1]

theorem outer_track (sel : Span → ℚ) (op : ℚ → ℚ → ℚ)
    (hassoc : ∀ a b c, op (op a b) c = op a (op b c)) (hidem : ∀ a, op a a = a)
    (rvs : List ℚ) (sm sr : Span) (k : ℚ) :
    ∀ (mvs : List ℚ) (a : Matches), MatchesWF a →
      (lookupSpans k (mvs.foldl (fun a3 mv =>
        rvs.foldl (fun a2 rv => if |mv - rv| ≤ 1 then addSpans a2 mv sm sr else a2) a3) a)).map
          (spansFold sel op) =
        if k ∈ mvs ∧ rvs.any (fun rv => |k - rv| ≤ 1) = true
        then some (optUpd op ((lookupSpans k a).map (spansFold sel op)) (op (sel sm) (sel sr)))
        else (lookupSpans k a).map (spansFold sel op) := by
  have hdedup : ∀ (o : Option ℚ) (z : ℚ), optUpd op (some (optUpd op o z)) z = optUpd op o z := by
    intro o z
    cases o with
    | none => simp [optUpd, hidem]
    | some a => simp [optUpd, hassoc, hidem]
  intro mvs
  induction mvs with
  | nil =>
    intro a _
    simp
  | cons mv rest ih =>
    intro a h
    simp only [List.foldl_cons]
    by_cases hmv : mv = k
    · subst hmv
      rw [ih _ (inner_wf mv sm sr rvs a h)]
      rw [inner_track sel op hassoc hidem mv sm sr rvs a h]
      by_cases ha : rvs.any (fun rv => |mv - rv| ≤ 1)
      · rw [if_pos ha]
        by_cases hrest : mv ∈ rest
        · rw [if_pos ⟨hrest, ha⟩, if_pos ⟨List.mem_cons_self _ _, ha⟩, hdedup]
        · rw [if_neg (fun hc => hrest hc.1), if_pos ⟨List.mem_cons_self _ _, ha⟩]
      · rw [if_neg ha]
        have hno : ¬ (rvs.any (fun rv => |mv - rv| ≤ 1) = true) := ha
        rw [if_neg (fun hc => hno hc.2), if_neg (fun hc => hno hc.2)]
    · have hk1 : k ≠ mv := fun he => hmv he.symm
      rw [ih _ (inner_wf mv sm sr rvs a h), inner_lookup_ne mv sm sr k hk1 rvs a]
      simp [List.mem_cons, hk1]

theorem procRect_eq (pts : Rect → List ℚ) (sp : Rect → Span) (m : Rect) (acc : Matches)
    (r : Rect) :
    procRect pts sp m acc r = (pts m).foldl (fun a3 mv =>
      (pts r).foldl (fun a2 rv => if |mv - rv| ≤ 1 then addSpans a2 mv (sp m) (sp r) else a2) a3)
      acc := rfl

theorem build_wf (pts : Rect → List ℚ) (sp : Rect → Span) (m : Rect) :
    ∀ (os : List Rect) (acc : Matches), MatchesWF acc →
      MatchesWF (os.foldl (fun acc r => if r = m then acc else procRect pts sp m acc r) acc) := by
  intro os
  induction os with
  | nil => intro acc h; exact h
  | cons r rest ih =>
    intro acc h
    simp only [List.foldl_cons]
    apply ih
    by_cases hr : r = m
    · rwa [if_pos hr]
    · rw [if_neg hr, procRect_eq]
      exact outer_wf _ _ _ _ _ h

theorem build_lookup_ne (pts : Rect → List ℚ) (sp : Rect → Span) (m : Rect) (k : ℚ)
    (hk : k ∉ pts m) :
    ∀ (os : List Rect) (acc : Matches),
      lookupSpans k (os.foldl (fun acc r => if r = m then acc else procRect pts sp m acc r) acc) =
        lookupSpans k acc := by
  intro os
  induction os with
  | nil => intro acc; rfl
  | cons r rest ih =>
    intro acc
    simp only [List.foldl_cons]
    rw [ih]
    by_cases hr : r = m
    · rw [if_pos hr]
    · rw [if_neg hr, procRect_eq, outer_lookup_ne _ _ _ _ _ _ hk]

theorem build_track (pts : Rect → List ℚ) (sp : Rect → Span) (m : Rect)
    (sel : Span → ℚ) (op : ℚ → ℚ → ℚ)
    (hassoc : ∀ a b c, op (op a b) c = op a (op b c)) (hidem : ∀ a, op a a = a)
    (k : ℚ) (hk : k ∈ pts m) :
    ∀ (os : List Rect) (acc : Matches), MatchesWF acc →
      (lookupSpans k
        (os.foldl (fun acc r => if r = m then acc else procRect pts sp m acc r) acc)).map
          (spansFold sel op) =
      os.foldl (fun o r =>
          if decide (r ≠ m) && (pts r).any (fun rv => |k - rv| ≤ 1)
          then some (optUpd op o (op (sel (sp m)) (sel (sp r)))) else o)
        ((lookupSpans k acc).map (spansFold sel op)) := by
  intro os
  induction os with
  | nil => intro acc _; rfl
  | cons r rest ih =>
    intro acc h
    simp only [List.foldl_cons]
    by_cases hr : r = m
    · rw [if_pos hr]
      have : (decide (r ≠ m) && (pts r).any (fun rv => |k - rv| ≤ 1)) = false := by
        simp [hr]
      rw [this]
      simp only [Bool.false_eq_true, if_false]
      exact ih acc h
    · rw [if_neg hr]
      have hd : (decide (r ≠ m) && (pts r).any (fun rv => |k - rv| ≤ 1)) =
          (pts r).any (fun rv => |k - rv| ≤ 1) := by
        simp [hr]
      rw [hd]
      rw [ih _ (by rw [procRect_eq]; exact outer_wf _ _ _ _ _ h)]
      have htr := outer_track sel op hassoc hidem (pts r) (sp m) (sp r) k (pts m) acc h
      rw [procRect_eq, htr]
      by_cases hany : (pts r).any (fun rv => |k - rv| ≤ 1) = true
      · rw [if_pos ⟨hk, hany⟩, if_pos hany]
      · rw [if_neg (fun hc => hany hc.2), if_neg hany]

theorem mem_keys_inner (mv : ℚ) (sm sr : Span) (k2 : ℚ) :
    ∀ (rvs : List ℚ) (a : Matches),
      (k2 ∈ (rvs.foldl (fun a2 rv => if |mv - rv| ≤ 1 then addSpans a2 mv sm sr else a2)
          a).map Prod.fst)
      ↔ (k2 ∈ a.map Prod.fst ∨ (k2 = mv ∧ rvs.any (fun rv => |mv - rv| ≤ 1) = true)) := by
  intro rvs
  induction rvs with
  | nil => intro a; simp
  | cons rv rest ih =>
    intro a
    simp only [List.foldl_cons, List.any_cons]
    by_cases hm : |mv - rv| ≤ 1
    · rw [if_pos hm, ih, mem_keys_addSpans]
      constructor
      · rintro ((h1 | h1) | h1)
        · exact Or.inl h1
        · exact Or.inr ⟨h1, by simp [hm]⟩
        · exact Or.inr ⟨h1.1, by simp [hm]⟩
      · rintro (h1 | h1)
        · exact Or.inl (Or.inl h1)
        · exact Or.inl (Or.inr h1.1)
    · rw [if_neg hm, ih]
      simp [hm]

theorem nodup_keys_inner (mv : ℚ) (sm sr : Span) :
    ∀ (rvs : List ℚ) (a : Matches), (a.map Prod.fst).Nodup →
      ((rvs.foldl (fun a2 rv => if |mv - rv| ≤ 1 then addSpans a2 mv sm sr else a2)
        a).map Prod.fst).Nodup := by
  intro rvs
  induction rvs with
  | nil => intro a h; exact h
  | cons rv rest ih =>
    intro a h
    simp only [List.foldl_cons]
    apply ih
    by_cases hm : |mv - rv| ≤ 1
    · rw [if_pos hm]
      exact nodup_keys_addSpans a mv sm sr h
    · rwa [if_neg hm]

theorem mem_keys_outer (rvs : List ℚ) (sm sr : Span) (k2 : ℚ) :
    ∀ (mvs : List ℚ) (a : Matches),
      (k2 ∈ (mvs.foldl (fun a3 mv =>
        rvs.foldl (fun a2 rv => if |mv - rv| ≤ 1 then addSpans a2 mv sm sr else a2) a3)
          a).map Prod.fst)
      ↔ (k2 ∈ a.map Prod.fst ∨
          (k2 ∈ mvs ∧ rvs.any (fun rv => |k2 - rv| ≤ 1) = true)) := by
  intro mvs
  induction mvs with
  | nil => intro a; simp
  | cons mv rest ih =>
    intro a
    simp only [List.foldl_cons]
    rw [ih, mem_keys_inner]
    constructor
    · rintro ((h1 | h1) | h1)
      · exact Or.inl h1
      · rcases h1 with ⟨rfl, hany⟩
        exact Or.inr ⟨List.mem_cons_self _ _, hany⟩
      · rcases h1 with ⟨hmem, hany⟩
        exact Or.inr ⟨List.mem_cons_of_mem _ hmem, hany⟩
    · rintro (h1 | ⟨hmem, hany⟩)
      · exact Or.inl (Or.inl h1)
      · rcases List.mem_cons.mp hmem with rfl | h2
        · exact Or.inl (Or.inr ⟨rfl, hany⟩)
        · exact Or.inr ⟨h2, hany⟩

theorem nodup_keys_outer (rvs : List ℚ) (sm sr : Span) :
    ∀ (mvs : List ℚ) (a : Matches), (a.map Prod.fst).Nodup →
      ((mvs.foldl (fun a3 mv =>
        rvs.foldl (fun a2 rv => if |mv - rv| ≤ 1 then addSpans a2 mv sm sr else a2) a3)
          a).map Prod.fst).Nodup := by
  intro mvs
  induction mvs with
  | nil => intro a h; exact h
  | cons mv rest ih =>
    intro a h
    simp only [List.foldl_cons]
    exact ih _ (nodup_keys_inner mv sm sr rvs a h)

theorem mem_keys_build (pts : Rect → List ℚ) (sp : Rect → Span) (m : Rect) (k : ℚ) :
    ∀ (os : List Rect) (acc : Matches),
      (k ∈ (os.foldl (fun acc r => if r = m then acc else procRect pts sp m acc r)
          acc).map Prod.fst)
      ↔ (k ∈ acc.map Prod.fst ∨
          (k ∈ pts m ∧
            os.any (fun r => decide (r ≠ m) && (pts r).any (fun rv => |k - rv| ≤ 1)) = true)) := by
  intro os
  induction os with
  | nil => intro acc; simp
  | cons r rest ih =>
    intro acc
    simp only [List.foldl_cons, List.any_cons]
    by_cases hr : r = m
    · rw [if_pos hr, ih]
      have : (decide (r ≠ m) && (pts r).any (fun rv => |k - rv| ≤ 1)) = false := by simp [hr]
      rw [this]
      simp
    · rw [if_neg hr, ih, procRect_eq, mem_keys_outer]
      have hd : (decide (r ≠ m) && (pts r).any (fun rv => |k - rv| ≤ 1)) =
          (pts r).any (fun rv => |k - rv| ≤ 1) := by simp [hr]
      rw [hd]
      simp only [Bool.or_eq_true]
      constructor
      · rintro ((h1 | ⟨h2, h3⟩) | ⟨h2, h3⟩)
        · exact Or.inl h1
        · exact Or.inr ⟨h2, Or.inl h3⟩
        · exact Or.inr ⟨h2, Or.inr h3⟩
      · rintro (h1 | ⟨h2, h3 | h3⟩)
        · exact Or.inl (Or.inl h1)
        · exact Or.inl (Or.inr ⟨h2, h3⟩)
        · exact Or.inr ⟨h2, h3⟩

theorem nodup_keys_build (pts : Rect → List ℚ) (sp : Rect → Span) (m : Rect) :
    ∀ (os : List Rect) (acc : Matches), (acc.map Prod.fst).Nodup →
      ((os.foldl (fun acc r => if r = m then acc else procRect pts sp m acc r)
        acc).map Prod.fst).Nodup := by
  intro os
  induction os with
  | nil => intro acc h; exact h
  | cons r rest ih =>
    intro acc h
    simp only [List.foldl_cons]
    apply ih
    by_cases hr : r = m
    · rwa [if_pos hr]
    · rw [if_neg hr, procRect_eq]
      exact nodup_keys_outer _ _ _ _ _ h

theorem optFold_absorb (op : ℚ → ℚ → ℚ)
    (hassoc : ∀ a b c, op (op a b) c = op a (op b c)) (hcomm : ∀ a b, op a b = op b a)
    (q : Rect → Bool) (z : Rect → ℚ) (c : ℚ) :
    ∀ (os : List Rect) (w : ℚ), op w c = w →
      os.foldl (fun o r => if q r then some (optUpd op o (op c (z r))) else o) (some w) =
        some (os.foldl (fun a r => if q r then op a (z r) else a) w) := by
  intro os
  induction os with
  | nil => intro w _; rfl
  | cons r rest ih =>
    intro w hw
    simp only [List.foldl_cons]
    cases hq : q r with
    | false => simp only [Bool.false_eq_true, if_false]; exact ih w hw
    | true =>
      simp only [if_true]
      have he : optUpd op (some w) (op c (z r)) = op w (z r) := by
        simp only [optUpd]
        rw [← hassoc, hw]
      rw [he]
      apply ih
      rw [hassoc, hcomm (z r) c, ← hassoc, hw]

theorem optFold_none (op : ℚ → ℚ → ℚ)
    (hassoc : ∀ a b c, op (op a b) c = op a (op b c)) (hcomm : ∀ a b, op a b = op b a)
    (hidem : ∀ a, op a a = a) (q : Rect → Bool) (z : Rect → ℚ) (c : ℚ) :
    ∀ (os : List Rect),
      os.foldl (fun o r => if q r then some (optUpd op o (op c (z r))) else o) none =
        if os.any q then some (os.foldl (fun a r => if q r then op a (z r) else a) c)
        else none := by
  intro os
  induction os with
  | nil => rfl
  | cons r rest ih =>
    simp only [List.foldl_cons, List.any_cons]
    cases hq : q r with
    | false =>
      simp only [Bool.false_eq_true, if_false, Bool.false_or]
      exact ih
    | true =>
      simp only [if_true, Bool.true_or]
      have habs : op (op c (z r)) c = op c (z r) := by
        rw [hassoc, hcomm (z r) c, ← hassoc, hidem]
      rw [show optUpd op none (op c (z r)) = op c (z r) from rfl]
      rw [optFold_absorb op hassoc hcomm q z c rest _ habs]

theorem keys_vGuides (m : Rect) (os : List Rect) :
    (vGuides m os).map Guide.x1 = (matchesX m os).map Prod.fst := by
  unfold vGuides
  rw [List.map_map]
  rfl

theorem keys_hGuides (m : Rect) (os : List Rect) :
    (hGuides m os).map Guide.y1 = (matchesY m os).map Prod.fst := by
  unfold hGuides
  rw [List.map_map]
  rfl

theorem nodup_keys_matchesX (m : Rect) (os : List Rect) :
    ((matchesX m os).map Prod.fst).Nodup :=
  nodup_keys_build Rect.gxs Rect.spanY m os [] (by simp)

theorem nodup_keys_matchesY (m : Rect) (os : List Rect) :
    ((matchesY m os).map Prod.fst).Nodup :=
  nodup_keys_build Rect.gys Rect.spanX m os [] (by simp)

theorem mem_keys_matchesX (m : Rect) (os : List Rect) (v : ℚ) :
    v ∈ (matchesX m os).map Prod.fst ↔ (v ∈ m.gxs ∧ os.any (matchesAtX m v) = true) := by
  have h : v ∈ (matchesX m os).map Prod.fst ↔
      (v ∈ ([] : Matches).map Prod.fst ∨
        (v ∈ Rect.gxs m ∧
          os.any (fun r => decide (r ≠ m) && (Rect.gxs r).any (fun rv => |v - rv| ≤ 1)) = true)) :=
    mem_keys_build Rect.gxs Rect.spanY m v os []
  rw [h]
  simp only [List.map_nil, List.not_mem_nil, false_or]
  exact Iff.rfl

theorem mem_keys_matchesY (m : Rect) (os : List Rect) (v : ℚ) :
    v ∈ (matchesY m os).map Prod.fst ↔ (v ∈ m.gys ∧ os.any (matchesAtY m v) = true) := by
  have h : v ∈ (matchesY m os).map Prod.fst ↔
      (v ∈ ([] : Matches).map Prod.fst ∨
        (v ∈ Rect.gys m ∧
          os.any (fun r => decide (r ≠ m) && (Rect.gys r).any (fun rv => |v - rv| ≤ 1)) = true)) :=
    mem_keys_build Rect.gys Rect.spanX m v os []
  rw [h]
  simp only [List.map_nil, List.not_mem_nil, false_or]
  exact Iff.rfl

theorem spans_matchesX (m : Rect) (os : List Rect) (kv : ℚ × List Span)
    (hkv : kv ∈ matchesX m os) :
    spansLo kv.2 = alignLoY m os kv.1 ∧ spansHi kv.2 = alignHiY m os kv.1 := by
  have hnd := nodup_keys_matchesX m os
  have hlk : lookupSpans kv.1
      (os.foldl (fun acc r => if r = m then acc else procRect Rect.gxs Rect.spanY m acc r) []) =
      some kv.2 :=
    lookup_of_mem_nodup _ kv hnd hkv
  have hmem2 := (mem_keys_matchesX m os kv.1).mp (List.mem_map_of_mem _ hkv)
  have hany : os.any (fun r => decide (r ≠ m) && (Rect.gxs r).any (fun rv => |kv.1 - rv| ≤ 1)) =
      true := hmem2.2
  constructor
  · have htr := build_track Rect.gxs Rect.spanY m Prod.fst min
      (fun a b c => min_assoc a b c) (fun a => min_self a) kv.1 hmem2.1 os []
      (by intro kv h; simp at h)
    rw [hlk] at htr
    have hof := optFold_none min (fun a b c => min_assoc a b c) (fun a b => min_comm a b)
      (fun a => min_self a)
      (fun r => decide (r ≠ m) && (Rect.gxs r).any (fun rv => |kv.1 - rv| ≤ 1))
      (fun r => (Rect.spanY r).1) ((Rect.spanY m).1) os
    have htr2 : (some (spansFold Prod.fst min kv.2) : Option ℚ) =
        if os.any (fun r => decide (r ≠ m) && (Rect.gxs r).any (fun rv => |kv.1 - rv| ≤ 1))
        then some (os.foldl (fun a r =>
          if decide (r ≠ m) && (Rect.gxs r).any (fun rv => |kv.1 - rv| ≤ 1)
          then min a (Rect.spanY r).1 else a) (Rect.spanY m).1)
        else none := htr.trans hof
    rw [if_pos hany] at htr2
    exact Option.some.inj htr2
  · have htr := build_track Rect.gxs Rect.spanY m Prod.snd max
      (fun a b c => max_assoc a b c) (fun a => max_self a) kv.1 hmem2.1 os []
      (by intro kv h; simp at h)
    rw [hlk] at htr
    have hof := optFold_none max (fun a b c => max_assoc a b c) (fun a b => max_comm a b)
      (fun a => max_self a)
      (fun r => decide (r ≠ m) && (Rect.gxs r).any (fun rv => |kv.1 - rv| ≤ 1))
      (fun r => (Rect.spanY r).2) ((Rect.spanY m).2) os
    have htr2 : (some (spansFold Prod.snd max kv.2) : Option ℚ) =
        if os.any (fun r => decide (r ≠ m) && (Rect.gxs r).any (fun rv => |kv.1 - rv| ≤ 1))
        then some (os.foldl (fun a r =>
          if decide (r ≠ m) && (Rect.gxs r).any (fun rv => |kv.1 - rv| ≤ 1)
          then max a (Rect.spanY r).2 else a) (Rect.spanY m).2)
        else none := htr.trans hof
    rw [if_pos hany] at htr2
    exact Option.some.inj htr2

theorem spans_matchesY (m : Rect) (os : List Rect) (kv : ℚ × List Span)
    (hkv : kv ∈ matchesY m os) :
    spansLo kv.2 = alignLoX m os kv.1 ∧ spansHi kv.2 = alignHiX m os kv.1 := by
  have hnd := nodup_keys_matchesY m os
  have hlk : lookupSpans kv.1
      (os.foldl (fun acc r => if r = m then acc else procRect Rect.gys Rect.spanX m acc r) []) =
      some kv.2 :=
    lookup_of_mem_nodup _ kv hnd hkv
  have hmem2 := (mem_keys_matchesY m os kv.1).mp (List.mem_map_of_mem _ hkv)
  have hany : os.any (fun r => decide (r ≠ m) && (Rect.gys r).any (fun rv => |kv.1 - rv| ≤ 1)) =
      true := hmem2.2
  constructor
  · have htr := build_track Rect.gys Rect.spanX m Prod.fst min
      (fun a b c => min_assoc a b c) (fun a => min_self a) kv.1 hmem2.1 os []
      (by intro kv h; simp at h)
    rw [hlk] at htr
    have hof := optFold_none min (fun a b c => min_assoc a b c) (fun a b => min_comm a b)
      (fun a => min_self a)
      (fun r => decide (r ≠ m) && (Rect.gys r).any (fun rv => |kv.1 - rv| ≤ 1))
      (fun r => (Rect.spanX r).1) ((Rect.spanX m).1) os
    have htr2 : (some (spansFold Prod.fst min kv.2) : Option ℚ) =
        if os.any (fun r => decide (r ≠ m) && (Rect.gys r).any (fun rv => |kv.1 - rv| ≤ 1))
        then some (os.foldl (fun a r =>
          if decide (r ≠ m) && (Rect.gys r).any (fun rv => |kv.1 - rv| ≤ 1)
          then min a (Rect.spanX r).1 else a) (Rect.spanX m).1)
        else none := htr.trans hof
    rw [if_pos hany] at htr2
    exact Option.some.inj htr2
  · have htr := build_track Rect.gys Rect.spanX m Prod.snd max
      (fun a b c => max_assoc a b c) (fun a => max_self a) kv.1 hmem2.1 os []
      (by intro kv h; simp at h)
    rw [hlk] at htr
    have hof := optFold_none max (fun a b c => max_assoc a b c) (fun a b => max_comm a b)
      (fun a => max_self a)
      (fun r => decide (r ≠ m) && (Rect.gys r).any (fun rv => |kv.1 - rv| ≤ 1))
      (fun r => (Rect.spanX r).2) ((Rect.spanX m).2) os
    have htr2 : (some (spansFold Prod.snd max kv.2) : Option ℚ) =
        if os.any (fun r => decide (r ≠ m) && (Rect.gys r).any (fun rv => |kv.1 - rv| ≤ 1))
        then some (os.foldl (fun a r =>
          if decide (r ≠ m) && (Rect.gys r).any (fun rv => |kv.1 - rv| ≤ 1)
          then max a (Rect.spanX r).2 else a) (Rect.spanX m).2)
        else none := htr.trans hof
    rw [if_pos hany] at htr2
    exact Option.some.inj htr2

/-- C1: the smart-guide matcher produces exactly one guide per distinct
matching coordinate value, keyed by the moving rectangle's coordinate —
the vertical guide keys are pairwise distinct and are exactly the moving
X-coordinates (left, center, right) within tolerance `1` of some other
rectangle's X-coordinate; each vertical guide at key `x` spans from the
minimum to the maximum of the vertical extents of the moving rectangle and
of every other rectangle matching at that key (symmetrically for
horizontal guides over Y-coordinates).  In particular, three frames sharing
only their left-edge X-coordinate produce exactly one (vertical) guide, and
a right-edge-to-left-edge alignment of two frames produces one guide
spanning the union of both frames' vertical extents. -/
theorem C1_smart_guides :
    ∀ (m : Rect) (os : List Rect),
      (updateGuides m os = vGuides m os ++ hGuides m os) ∧
      ((vGuides m os).map Guide.x1).Nodup ∧
      (∀ v : ℚ, v ∈ (vGuides m os).map Guide.x1 ↔
        (v ∈ m.gxs ∧ os.any (matchesAtX m v) = true)) ∧
      (∀ g, g ∈ vGuides m os →
        g.x2 = g.x1 ∧ g.y1 = alignLoY m os g.x1 ∧ g.y2 = alignHiY m os g.x1) ∧
      ((hGuides m os).map Guide.y1).Nodup ∧
      (∀ v : ℚ, v ∈ (hGuides m os).map Guide.y1 ↔
        (v ∈ m.gys ∧ os.any (matchesAtY m v) = true)) ∧
      (∀ g, g ∈ hGuides m os →
        g.y2 = g.y1 ∧ g.x1 = alignLoX m os g.y1 ∧ g.x2 = alignHiX m os g.y1) ∧
      (updateGuides ⟨0, 0, 50, 50⟩ [⟨0, 1000, 300, 50⟩, ⟨0, 2000, 700, 50⟩] =
        [⟨0, 0, 0, 2050⟩]) ∧
      (updateGuides ⟨0, 0, 100, 100⟩ [⟨100, 300, 50, 80⟩] = [⟨100, 0, 100, 380⟩]) := by
  intro m os
  refine ⟨rfl, ?_, ?_, ?_, ?_, ?_, ?_,
    by norm_num [updateGuides, vGuides, hGuides, matchesX, matchesY, buildMatches, procRect,
      addSpans, spansLo, spansHi, spansFold, Rect.gxs, Rect.gys, Rect.spanX, Rect.spanY,
      Rect.mk.injEq, Guide.mk.injEq],
    by norm_num [updateGuides, vGuides, hGuides, matchesX, matchesY, buildMatches, procRect,
      addSpans, spansLo, spansHi, spansFold, Rect.gxs, Rect.gys, Rect.spanX, Rect.spanY,
      Rect.mk.injEq, Guide.mk.injEq]⟩
  · rw [keys_vGuides]
    exact nodup_keys_matchesX m os
  · intro v
    rw [keys_vGuides]
    exact mem_keys_matchesX m os v
  · intro g hg
    rcases List.mem_map.mp hg with ⟨kv, hkv, rfl⟩
    exact ⟨rfl, (spans_matchesX m os kv hkv).1, (spans_matchesX m os kv hkv).2⟩
  · rw [keys_hGuides]
    exact nodup_keys_matchesY m os
  · intro v
    rw [keys_hGuides]
    exact mem_keys_matchesY m os v
  · intro g hg
    rcases List.mem_map.mp hg with ⟨kv, hkv, rfl⟩
    exact ⟨rfl, (spans_matchesY m os kv hkv).1, (spans_matchesY m os kv hkv).2⟩

/-- Witness for C1 on the right-to-left alignment scenario. -/
theorem C1_smart_guides_witness :
    (Guide.mk 100 0 100 380).x2 = (Guide.mk 100 0 100 380).x1 ∧
    (Guide.mk 100 0 100 380).y1 =
      alignLoY ⟨0, 0, 100, 100⟩ [⟨100, 300, 50, 80⟩] (Guide.mk 100 0 100 380).x1 ∧
    (Guide.mk 100 0 100 380).y2 =
      alignHiY ⟨0, 0, 100, 100⟩ [⟨100, 300, 50, 80⟩] (Guide.mk 100 0 100 380).x1 :=
  (C1_smart_guides ⟨0, 0, 100, 100⟩ [⟨100, 300, 50, 80⟩]).2.2.2.1
    (Guide.mk 100 0 100 380)
    (by norm_num [vGuides, matchesX, buildMatches, procRect, addSpans, spansLo, spansHi,
      spansFold, Rect.gxs, Rect.spanY, Rect.mk.injEq, Guide.mk.injEq])

end Dimensio
